import Mathlib

/-!
Verification of the filter-and-aggregate pipeline of `dashboard_final.py`.

The dashboard loads a table of incident records (columns `Ano`, `Indicador`,
`Localidad`, `Valor`), filters it by the sidebar selection, and feeds the
filtered table to several aggregations.  We embed records as a structure,
the pandas boolean filters as list filters, `groupby(...).sum()` as a
group-by-sum over deduplicated sorted keys, `sort_values` as a sort, and
the quantile/mean statistics over rationals, with pandas' NaN-on-empty
represented by `Option.none`.
-/

/-- One row of the incident table `df`: columns `Ano`, `Indicador`,
`Localidad`, `Valor`.  `Valor` is a numeric column, embedded as a rational. -/
structure Record where
  ano : Int
  indicador : String
  localidad : String
  valor : ℚ
deriving DecidableEq

/-- The sidebar state: `año_sel` (`none` embeds the sentinel `"Todos"`),
`indicador_sel` (the multiselect of crime types) and `localidad_sel`
(the multiselect of localities). -/
structure Selection where
  ano_sel : Option Int
  indicador_sel : List String
  localidad_sel : List String
deriving DecidableEq

/-- `df[df["Indicador"].isin(indicador_sel)]`. -/
def filtroIndicador (sel : Selection) (df : List Record) : List Record :=
  df.filter (fun r => decide (r.indicador ∈ sel.indicador_sel))

/-- `if año_sel != "Todos": df_filtrado = df_filtrado[df_filtrado["Ano"] == año_sel]`. -/
def filtroAno (sel : Selection) (df : List Record) : List Record :=
  match sel.ano_sel with
  | none => df
  | some y => df.filter (fun r => decide (r.ano = y))

/-- `df_filtrado[df_filtrado["Localidad"].isin(localidad_sel)]`. -/
def filtroLocalidad (sel : Selection) (df : List Record) : List Record :=
  df.filter (fun r => decide (r.localidad ∈ sel.localidad_sel))

/-- Lines 79-84: the filtered table `df_filtrado`, applying the indicator
filter, then the year filter, then the locality filter. -/
def df_filtrado (df : List Record) (sel : Selection) : List Record :=
  filtroLocalidad sel (filtroAno sel (filtroIndicador sel df))

lemma filtroAno_nil (sel : Selection) : filtroAno sel [] = [] := by
  unfold filtroAno
  cases sel.ano_sel <;> rfl

lemma mem_filtroAno {sel : Selection} {df : List Record} {r : Record}
    (h : r ∈ filtroAno sel df) :
    r ∈ df ∧ (sel.ano_sel = none ∨ sel.ano_sel = some r.ano) := by
  unfold filtroAno at h
  cases hy : sel.ano_sel with
  | none => rw [hy] at h; exact ⟨h, Or.inl rfl⟩
  | some y =>
      rw [hy] at h
      rw [List.mem_filter] at h
      refine ⟨h.1, Or.inr ?_⟩
      rw [of_decide_eq_true h.2]

/-- Claim C1: every record retained by `df_filtrado` comes from the input
table and satisfies the three filter predicates (its indicator is selected,
its year matches unless the year selection is "Todos", and its locality is
selected); moreover with an empty indicator selection no record passes. -/
theorem df_filtrado_subset_preds (df : List Record) (sel : Selection) :
    (∀ r ∈ df_filtrado df sel,
        r ∈ df ∧ r.indicador ∈ sel.indicador_sel ∧
          (sel.ano_sel = none ∨ sel.ano_sel = some r.ano) ∧
          r.localidad ∈ sel.localidad_sel) ∧
    (sel.indicador_sel = [] → df_filtrado df sel = []) := by
  constructor
  · intro r hr
    unfold df_filtrado filtroLocalidad at hr
    rw [List.mem_filter] at hr
    obtain ⟨hr, hloc⟩ := hr
    obtain ⟨hr, hano⟩ := mem_filtroAno hr
    unfold filtroIndicador at hr
    rw [List.mem_filter] at hr
    exact ⟨hr.1, of_decide_eq_true hr.2, hano, of_decide_eq_true hloc⟩
  · intro hempty
    have hind : filtroIndicador sel df = [] := by
      unfold filtroIndicador
      apply List.filter_eq_nil_iff.mpr
      intro r _
      simp [hempty]
    unfold df_filtrado
    rw [hind, filtroAno_nil]
    rfl

/-- Concrete instance of claim C1. -/
theorem df_filtrado_subset_preds_witness :
    ((⟨2020, "Hurto", "SUBA", 10⟩ : Record) ∈ [(⟨2020, "Hurto", "SUBA", 10⟩ : Record)] ∧
      "Hurto" ∈ ["Hurto"] ∧
      ((some 2020 : Option Int) = none ∨ (some 2020 : Option Int) = some 2020) ∧
      "SUBA" ∈ ["SUBA"]) ∧
    df_filtrado [(⟨2020, "Hurto", "SUBA", 10⟩ : Record)] ⟨some 2020, [], ["SUBA"]⟩ = [] := by
  constructor
  · exact (df_filtrado_subset_preds [⟨2020, "Hurto", "SUBA", 10⟩]
      ⟨some 2020, ["Hurto"], ["SUBA"]⟩).1 ⟨2020, "Hurto", "SUBA", 10⟩
      (by simp [df_filtrado, filtroIndicador, filtroAno, filtroLocalidad])
  · exact (df_filtrado_subset_preds [⟨2020, "Hurto", "SUBA", 10⟩]
      ⟨some 2020, [], ["SUBA"]⟩).2 rfl

lemma filter_swap (p q : Record → Bool) (l : List Record) :
    (l.filter p).filter q = (l.filter q).filter p := by
  rw [List.filter_filter, List.filter_filter]
  apply List.filter_congr
  intro r _
  rw [Bool.and_comm]

/-- The year filter, rewritten as a single `List.filter`. -/
def anoPred (sel : Selection) (r : Record) : Bool :=
  match sel.ano_sel with
  | none => true
  | some y => decide (r.ano = y)

lemma filtroAno_eq_filter (sel : Selection) (df : List Record) :
    filtroAno sel df = df.filter (anoPred sel) := by
  unfold filtroAno anoPred
  cases sel.ano_sel with
  | none => simp
  | some y => rfl

/-- Claim C2: the three filters commute — all six application orders give
the same filtered table as the program's order (indicator, year, locality). -/
theorem filtros_conmutan (df : List Record) (sel : Selection) :
    filtroLocalidad sel (filtroAno sel (filtroIndicador sel df)) = df_filtrado df sel ∧
    filtroAno sel (filtroLocalidad sel (filtroIndicador sel df)) = df_filtrado df sel ∧
    filtroLocalidad sel (filtroIndicador sel (filtroAno sel df)) = df_filtrado df sel ∧
    filtroIndicador sel (filtroLocalidad sel (filtroAno sel df)) = df_filtrado df sel ∧
    filtroAno sel (filtroIndicador sel (filtroLocalidad sel df)) = df_filtrado df sel ∧
    filtroIndicador sel (filtroAno sel (filtroLocalidad sel df)) = df_filtrado df sel := by
  unfold df_filtrado
  simp only [filtroAno_eq_filter]
  unfold filtroIndicador filtroLocalidad
  refine ⟨trivial, ?_, ?_, ?_, ?_, ?_⟩ <;>
  · simp only [List.filter_filter]
    apply List.filter_congr
    intro r _
    simp only [Bool.and_comm, Bool.and_left_comm, Bool.and_assoc]

/-- `groupby(col, as_index=False)[Valor].sum()`: one row per distinct key
(pandas sorts group keys), whose value is the sum of `Valor` over the rows
with that key. -/
def groupBySum {κ : Type} [DecidableEq κ] (key : Record → κ)
    (r : κ → κ → Prop) [DecidableRel r] (dff : List Record) : List (κ × ℚ) :=
  (((dff.map key).dedup).insertionSort r).map
    (fun k => (k, ((dff.filter (fun rec => decide (key rec = k))).map Record.valor).sum))

/-- Lines 99-103: `df_mapa = df_filtrado.groupby("Localidad", as_index=False)["Valor"].sum()`. -/
def df_mapa (dff : List Record) : List (String × ℚ) :=
  groupBySum Record.localidad (· ≤ ·) dff

/-- Truncation toward zero, the behaviour of Python's `int()` on a number. -/
def ratTrunc (q : ℚ) : ℤ :=
  q.num.tdiv q.den

/-- Line 87: `total_delitos = int(df_filtrado["Valor"].sum())`. -/
def total_delitos (dff : List Record) : ℤ :=
  ratTrunc ((dff.map Record.valor).sum)

lemma sum_groups {κ : Type} [DecidableEq κ] (key : Record → κ) :
    ∀ (ks : List κ) (dff : List Record), ks.Nodup → (∀ r ∈ dff, key r ∈ ks) →
      (ks.map
        (fun k => ((dff.filter (fun rec => decide (key rec = k))).map Record.valor).sum)).sum
        = (dff.map Record.valor).sum := by
  intro ks
  induction ks with
  | nil =>
      intro dff _ hcov
      cases dff with
      | nil => simp
      | cons r l => exact absurd (hcov r (List.mem_cons_self r l)) (List.not_mem_nil _)
  | cons k ks ih =>
      intro dff hnd hcov
      have hsplit :
          ((dff.filter (fun rec => decide (key rec = k))).map Record.valor).sum +
            ((dff.filter (fun rec => !decide (key rec = k))).map Record.valor).sum
            = (dff.map Record.valor).sum := by
        have hperm := (List.filter_append_perm (fun rec => decide (key rec = k)) dff).map Record.valor
        have := hperm.sum_eq
        simpa [List.map_append, List.sum_append] using this
      have hcov' : ∀ r ∈ dff.filter (fun rec => !decide (key rec = k)), key r ∈ ks := by
        intro r hr
        rw [List.mem_filter] at hr
        have hk : key r ≠ k := by
          have := hr.2
          simp only [Bool.not_eq_true', decide_eq_false_iff_not] at this
          exact this
        have := hcov r hr.1
        rw [List.mem_cons] at this
        exact this.resolve_left hk
      have hsame : ∀ k2 ∈ ks,
          ((dff.filter (fun rec => !decide (key rec = k))).filter
              (fun rec => decide (key rec = k2))).map Record.valor
            = (dff.filter (fun rec => decide (key rec = k2))).map Record.valor := by
        intro k2 hk2
        have hne : k2 ≠ k := by
          intro h
          rw [h] at hk2
          exact (List.nodup_cons.mp hnd).1 hk2
        congr 1
        rw [List.filter_filter]
        apply List.filter_congr
        intro r _
        cases hq : decide (key r = k2) with
        | false => simp
        | true =>
            have : key r ≠ k := by
              rw [of_decide_eq_true hq]
              exact hne
            simp [this]
      have hih := ih (dff.filter (fun rec => !decide (key rec = k)))
        (List.nodup_cons.mp hnd).2 hcov'
      calc ((k :: ks).map
              (fun k2 => ((dff.filter (fun rec => decide (key rec = k2))).map Record.valor).sum)).sum
          = ((dff.filter (fun rec => decide (key rec = k))).map Record.valor).sum +
              (ks.map
                (fun k2 => ((dff.filter (fun rec => decide (key rec = k2))).map Record.valor).sum)).sum := by
            simp
        _ = ((dff.filter (fun rec => decide (key rec = k))).map Record.valor).sum +
              (ks.map
                (fun k2 => (((dff.filter (fun rec => !decide (key rec = k))).filter
                    (fun rec => decide (key rec = k2))).map Record.valor).sum)).sum := by
            congr 1
            exact congrArg List.sum
              (List.map_congr_left (fun k2 hk2 => congrArg List.sum (hsame k2 hk2).symm))
        _ = ((dff.filter (fun rec => decide (key rec = k))).map Record.valor).sum +
              ((dff.filter (fun rec => !decide (key rec = k))).map Record.valor).sum := by
            rw [hih]
        _ = (dff.map Record.valor).sum := hsplit

lemma sum_int_of_den_one :
    ∀ l : List ℚ, (∀ q ∈ l, q.den = 1) → ∃ z : ℤ, l.sum = (z : ℚ) := by
  intro l
  induction l with
  | nil => exact fun _ => ⟨0, by simp⟩
  | cons q l ih =>
      intro h
      obtain ⟨z, hz⟩ := ih (fun p hp => h p (List.mem_cons_of_mem q hp))
      refine ⟨q.num + z, ?_⟩
      have hq : (q.num : ℚ) = q := (Rat.den_eq_one_iff q).mp (h q (List.mem_cons_self q l))
      rw [List.sum_cons, hz, Int.cast_add, hq]

lemma ratTrunc_intCast (z : ℤ) : ratTrunc (z : ℚ) = z := by
  unfold ratTrunc
  rw [Rat.intCast_num, Rat.intCast_den]
  exact Int.tdiv_one z

lemma df_mapa_snd_sum (dff : List Record) :
    ((df_mapa dff).map Prod.snd).sum = (dff.map Record.valor).sum := by
  unfold df_mapa groupBySum
  rw [List.map_map]
  have hperm := List.perm_insertionSort (· ≤ ·) ((dff.map Record.localidad).dedup)
  apply sum_groups Record.localidad
  · exact hperm.symm.nodup (List.nodup_dedup _)
  · intro r hr
    rw [hperm.mem_iff, List.mem_dedup]
    exact List.mem_map_of_mem Record.localidad hr

/-- Claim C3 (amended): when every record value is an integer, the
per-locality totals of `df_mapa` sum to `total_delitos` of the filtered
table; with fractional values the `int()` truncation in `total_delitos`
can differ from the exact sum. -/
theorem df_mapa_sum_eq_total (dff : List Record)
    (hval : ∀ r ∈ dff, r.valor.den = 1) :
    ((df_mapa dff).map Prod.snd).sum = ((total_delitos dff : ℤ) : ℚ) := by
  obtain ⟨z, hz⟩ := sum_int_of_den_one (dff.map Record.valor) (by
    intro q hq
    obtain ⟨r, hr, hrq⟩ := List.mem_map.mp hq
    rw [← hrq]
    exact hval r hr)
  rw [df_mapa_snd_sum, hz]
  unfold total_delitos
  rw [hz, ratTrunc_intCast]

/-- Concrete instance of claim C3 (amended), at a two-record table over a
single locality with integer values 10 and 3. -/
theorem df_mapa_sum_eq_total_witness :
    ((df_mapa [⟨2020, "Hurto", "SUBA", 10⟩, ⟨2020, "Rina", "SUBA", 3⟩]).map Prod.snd).sum
      = ((total_delitos [⟨2020, "Hurto", "SUBA", 10⟩, ⟨2020, "Rina", "SUBA", 3⟩] : ℤ) : ℚ) := by
  exact df_mapa_sum_eq_total [⟨2020, "Hurto", "SUBA", 10⟩, ⟨2020, "Rina", "SUBA", 3⟩]
    (by
      intro r hr
      rw [List.mem_cons, List.mem_cons] at hr
      rcases hr with h | h | h
      · rw [h]; rfl
      · rw [h]; rfl
      · exact absurd h (List.not_mem_nil r))

/-- A one-record table whose `Valor` is the non-integral rational 1/2. -/
def dffHalf : List Record :=
  [⟨2020, "Hurto", "SUBA", (⟨1, 2, by decide, Nat.coprime_one_left 2⟩ : ℚ)⟩]

/-- Counterexample to claim C3 as stated: with a single record of value 1/2,
the per-locality totals of `df_mapa` sum to 1/2, while
`total_delitos = int(0.5) = 0`. -/
theorem df_mapa_sum_ne_total_cex :
    ((df_mapa dffHalf).map Prod.snd).sum ≠ ((total_delitos dffHalf : ℤ) : ℚ) := by
  have hmapa : ((df_mapa dffHalf).map Prod.snd).sum
      = (⟨1, 2, by decide, Nat.coprime_one_left 2⟩ : ℚ) := by
    simp [df_mapa, groupBySum, dffHalf, List.insertionSort, List.orderedInsert]
  have htot : total_delitos dffHalf = 0 := by
    have hsum : (dffHalf.map Record.valor).sum
        = (⟨1, 2, by decide, Nat.coprime_one_left 2⟩ : ℚ) := by
      simp [dffHalf]
    unfold total_delitos
    rw [hsum]
    rfl
  rw [hmapa, htot]
  intro h
  have := congrArg Rat.num h
  simp at this

/-- The descending-by-total order used by `sort_values("Valor", ascending=False)`. -/
def valorDesc (a b : String × ℚ) : Prop :=
  b.2 ≤ a.2

instance : DecidableRel valorDesc :=
  fun a b => inferInstanceAs (Decidable (b.2 ≤ a.2))

instance : IsTotal (String × ℚ) valorDesc :=
  ⟨fun a b => le_total b.2 a.2⟩

instance : IsTrans (String × ℚ) valorDesc :=
  ⟨fun _ _ _ h1 h2 => le_trans h2 h1⟩

/-- Lines 189-195: `df_delitos = df_filtrado.groupby("Indicador",
as_index=False)["Valor"].sum().sort_values("Valor", ascending=False).head(n)`. -/
def df_delitos (dff : List Record) (n : ℕ) : List (String × ℚ) :=
  ((groupBySum Record.indicador (· ≤ ·) dff).insertionSort valorDesc).take n

/-- Claim C4: `df_delitos dff 3` (the top-3 indicator aggregation) has at
most 3 entries and is sorted in descending order of total. -/
theorem df_delitos_top3 (dff : List Record) :
    (df_delitos dff 3).length ≤ 3 ∧
    List.Sorted valorDesc (df_delitos dff 3) := by
  constructor
  · exact List.length_take_le 3 _
  · exact List.Pairwise.sublist (List.take_sublist 3 _)
      (List.sorted_insertionSort valorDesc (groupBySum Record.indicador (· ≤ ·) dff))

/-- Lines 220-224: `df_time = df[df["Indicador"].isin(indicador_sel)]
.groupby("Ano", as_index=False)["Valor"].sum()` — computed from the full
table `df`, with only the indicator part of the selection applied. -/
def df_time (df : List Record) (sel : Selection) : List (Int × ℚ) :=
  groupBySum Record.ano (· ≤ ·)
    (df.filter (fun r => decide (r.indicador ∈ sel.indicador_sel)))

/-- Claim C5: the per-year time aggregation depends only on the indicator
part of the selection — two selections with the same indicator set but
arbitrary year and locality selections give identical `df_time` output. -/
theorem df_time_indicator_only (df : List Record) (sel1 sel2 : Selection)
    (h : sel1.indicador_sel = sel2.indicador_sel) :
    df_time df sel1 = df_time df sel2 := by
  unfold df_time
  rw [h]

/-- Concrete instance of claim C5: the year and locality selections differ
arbitrarily, the indicator sets agree, and the time aggregations coincide. -/
theorem df_time_indicator_only_witness :
    df_time [(⟨2020, "Hurto", "SUBA", 10⟩ : Record)] ⟨some 2020, ["Hurto"], ["SUBA"]⟩
      = df_time [(⟨2020, "Hurto", "SUBA", 10⟩ : Record)] ⟨none, ["Hurto"], []⟩ := by
  exact df_time_indicator_only [⟨2020, "Hurto", "SUBA", 10⟩]
    ⟨some 2020, ["Hurto"], ["SUBA"]⟩ ⟨none, ["Hurto"], []⟩ rfl

/-- The `Valor` column of an aggregation table (a list of key-total pairs). -/
def valores (dfm : List (String × ℚ)) : List ℚ :=
  dfm.map Prod.snd

/-- `Series.quantile(q)` with pandas' default linear interpolation: on the
sorted values, position `h = (n-1)q`, result `x_i + (h - i)(x_{i+1} - x_i)`
with `i = floor h`; `NaN` (here `none`) on an empty series. -/
def quantile (l : List ℚ) (q : ℚ) : Option ℚ :=
  if l.isEmpty then none
  else
    let xs := l.insertionSort (· ≤ ·)
    let h : ℚ := ((l.length : ℚ) - 1) * q
    let i : ℕ := (⌊h⌋).toNat
    some (xs.getD i 0 + (h - (⌊h⌋ : ℚ)) * (xs.getD (i + 1) 0 - xs.getD i 0))

/-- Line 289: `media = df_mapa["Valor"].mean()` (`NaN`, i.e. `none`, on empty). -/
def media (dfm : List (String × ℚ)) : Option ℚ :=
  if (valores dfm).isEmpty then none
  else some ((valores dfm).sum / ((valores dfm).length : ℚ))

/-- Line 290: `mediana = df_mapa["Valor"].median()`. -/
def mediana (dfm : List (String × ℚ)) : Option ℚ :=
  quantile (valores dfm) (1/2)

/-- Line 362: `q1 = df_mapa["Valor"].quantile(0.25)`. -/
def q1 (dfm : List (String × ℚ)) : Option ℚ :=
  quantile (valores dfm) (1/4)

/-- Line 363: `q3 = df_mapa["Valor"].quantile(0.75)`. -/
def q3 (dfm : List (String × ℚ)) : Option ℚ :=
  quantile (valores dfm) (3/4)

/-- Line 364: `iqr = q3 - q1` (`NaN` propagates as `none`). -/
def iqr (dfm : List (String × ℚ)) : Option ℚ :=
  match q3 dfm, q1 dfm with
  | some a, some b => some (a - b)
  | _, _ => none

/-- Line 365: `limite_superior = q3 + 1.5 * iqr`. -/
def limite_superior (dfm : List (String × ℚ)) : Option ℚ :=
  match q3 dfm, iqr dfm with
  | some a, some b => some (a + 3/2 * b)
  | _, _ => none

/-- Line 367: `outliers = df_mapa[df_mapa["Valor"] > limite_superior]`;
a comparison against a `NaN` fence holds for no row. -/
def outliers (dfm : List (String × ℚ)) : List (String × ℚ) :=
  match limite_superior dfm with
  | none => []
  | some f => dfm.filter (fun p => decide (f < p.2))

/-- Claim C6: on the empty locality aggregation every statistic is the
explicit undefined sentinel `none` (the embedding of pandas' NaN): the
computations are total, no division by zero occurs, and the undefined
fence flags no outliers. -/
theorem stats_empty :
    media [] = none ∧ mediana [] = none ∧ q1 [] = none ∧ q3 [] = none ∧
    iqr [] = none ∧ limite_superior [] = none ∧ outliers [] = [] :=
  ⟨rfl, rfl, rfl, rfl, rfl, rfl, rfl⟩

lemma quantile_singleton (v : ℚ) (q : ℚ) : quantile [v] q = some v := by
  unfold quantile
  simp [List.insertionSort, List.orderedInsert]

/-- Claim C7: on a one-element aggregation with value `v`, the quartiles
are `q1 = q3 = v`, `iqr = 0`, the upper fence is `v`, and since only values
strictly above the fence are flagged, the outlier list is empty. -/
theorem stats_singleton (loc : String) (v : ℚ) :
    q1 [(loc, v)] = some v ∧ q3 [(loc, v)] = some v ∧ iqr [(loc, v)] = some 0 ∧
    limite_superior [(loc, v)] = some v ∧ outliers [(loc, v)] = [] := by
  have hq1 : q1 [(loc, v)] = some v := quantile_singleton v (1/4)
  have hq3 : q3 [(loc, v)] = some v := quantile_singleton v (3/4)
  have hiqr : iqr [(loc, v)] = some 0 := by
    unfold iqr
    rw [hq1, hq3]
    simp
  have hlim : limite_superior [(loc, v)] = some v := by
    unfold limite_superior
    rw [hq3, hiqr]
    norm_num
  refine ⟨hq1, hq3, hiqr, hlim, ?_⟩
  unfold outliers
  rw [hlim]
  apply List.filter_eq_nil_iff.mpr
  intro p hp
  rw [List.mem_singleton] at hp
  rw [hp]
  simp

/-- The rows contributed to the left join by one boundary locality `b`:
one row per matching aggregation row, or a single `NaN` (`none`) row when
no aggregation entry matches. -/
def joinRow (dfm : List (String × ℚ)) (b : String) : List (String × Option ℚ) :=
  match dfm.filter (fun p => decide (p.1 = b)) with
  | [] => [(b, none)]
  | ms => ms.map (fun p => (b, some p.2))

/-- Lines 108-113: `gdf.merge(df_mapa, left_on="LOCNOMBRE",
right_on="Localidad", how="left")`, keyed by the boundary locality list. -/
def mergeLeft (gdf : List String) (dfm : List (String × ℚ)) : List (String × Option ℚ) :=
  gdf.flatMap (joinRow dfm)

/-- Line 117: `gdf_mapa["Valor"] = gdf_mapa["Valor"].fillna(0)` applied to
the left join. -/
def gdf_mapa (gdf : List String) (dfm : List (String × ℚ)) : List (String × ℚ) :=
  (mergeLeft gdf dfm).map (fun p => (p.1, p.2.getD 0))

lemma df_mapa_keys_nodup (dff : List Record) :
    ((df_mapa dff).map Prod.fst).Nodup := by
  unfold df_mapa groupBySum
  rw [List.map_map]
  have hid : (Prod.fst ∘ fun k =>
      ((k, ((dff.filter (fun rec => decide (Record.localidad rec = k))).map Record.valor).sum) :
        String × ℚ)) = id := rfl
  rw [hid, List.map_id]
  exact (List.perm_insertionSort _ _).symm.nodup (List.nodup_dedup _)

lemma filter_key_short :
    ∀ (dfm : List (String × ℚ)), (dfm.map Prod.fst).Nodup → ∀ b : String,
      dfm.filter (fun p => decide (p.1 = b)) = [] ∨
        ∃ v, dfm.filter (fun p => decide (p.1 = b)) = [(b, v)] := by
  intro dfm
  induction dfm with
  | nil => exact fun _ b => Or.inl rfl
  | cons p l ih =>
      intro hnd b
      rw [List.map_cons, List.nodup_cons] at hnd
      by_cases hb : p.1 = b
      · right
        refine ⟨p.2, ?_⟩
        have hdec : decide (p.1 = b) = true := decide_eq_true hb
        have hrest : l.filter (fun p2 => decide (p2.1 = b)) = [] := by
          apply List.filter_eq_nil_iff.mpr
          intro p2 hp2
          simp only [decide_eq_true_eq]
          intro hp2b
          apply hnd.1
          rw [← hb] at hp2b
          exact hp2b ▸ List.mem_map_of_mem Prod.fst hp2
        have hpair : p = (b, p.2) := by
          rw [← hb]
        rw [List.filter_cons, hdec]
        simp only [hrest, if_true]
        rw [← hpair]
      · have hdec : decide (p.1 = b) = false := decide_eq_false hb
        rw [List.filter_cons, hdec]
        simpa using ih hnd.2 b

lemma filter_key_nil {dfm : List (String × ℚ)} {b : String}
    (h : b ∉ dfm.map Prod.fst) :
    dfm.filter (fun p => decide (p.1 = b)) = [] := by
  apply List.filter_eq_nil_iff.mpr
  intro p hp
  simp only [decide_eq_true_eq]
  intro hpb
  exact h (hpb ▸ List.mem_map_of_mem Prod.fst hp)

lemma gdf_mapa_cons (b : String) (gdf : List String) (dfm : List (String × ℚ)) :
    gdf_mapa (b :: gdf) dfm
      = (joinRow dfm b).map (fun p => (p.1, p.2.getD 0)) ++ gdf_mapa gdf dfm := by
  unfold gdf_mapa mergeLeft
  rw [List.flatMap_cons, List.map_append]

/-- Claim C8: joining the boundary localities against the locality
aggregation of a filtered table with `how="left"` and `fillna(0)` yields
exactly one row per boundary locality (in order), and a boundary locality
absent from the aggregation gets the value 0 — never a failure. -/
theorem gdf_mapa_left_join (gdf : List String) (dff : List Record) :
    (gdf_mapa gdf (df_mapa dff)).map Prod.fst = gdf ∧
    (∀ b ∈ gdf, b ∉ (df_mapa dff).map Prod.fst →
      (b, (0 : ℚ)) ∈ gdf_mapa gdf (df_mapa dff)) := by
  induction gdf with
  | nil => exact ⟨rfl, by intro b hb; exact absurd hb (List.not_mem_nil b)⟩
  | cons b gdf ih =>
      have hblock :
          ((joinRow (df_mapa dff) b).map (fun p => (p.1, p.2.getD 0))).map Prod.fst = [b] := by
        unfold joinRow
        rcases filter_key_short (df_mapa dff) (df_mapa_keys_nodup dff) b with h | ⟨v, h⟩
        · rw [h]
          rfl
        · rw [h]
          rfl
      constructor
      · rw [gdf_mapa_cons, List.map_append, hblock, ih.1]
        rfl
      · intro b2 hb2 hkeys
        rw [gdf_mapa_cons]
        rw [List.mem_cons] at hb2
        rcases hb2 with hb2 | hb2
        · apply List.mem_append_left
          rw [hb2]
          unfold joinRow
          rw [filter_key_nil (hb2 ▸ hkeys)]
          exact List.mem_singleton.mpr rfl
        · exact List.mem_append_right _ (ih.2 b2 hb2 hkeys)

/-- Concrete instance of claim C8: the boundary list has a locality `USME`
with no aggregation entry; the joined table keeps both localities once and
fills `USME` with 0. -/
theorem gdf_mapa_left_join_witness :
    (gdf_mapa ["SUBA", "USME"] (df_mapa [(⟨2020, "Hurto", "SUBA", 10⟩ : Record)])).map Prod.fst
        = ["SUBA", "USME"] ∧
    ("USME", (0 : ℚ)) ∈ gdf_mapa ["SUBA", "USME"] (df_mapa [(⟨2020, "Hurto", "SUBA", 10⟩ : Record)]) := by
  have h := gdf_mapa_left_join ["SUBA", "USME"] [⟨2020, "Hurto", "SUBA", 10⟩]
  refine ⟨h.1, h.2 "USME" (by simp) ?_⟩
  simp [df_mapa, groupBySum, List.insertionSort, List.orderedInsert]

/-- The arguments of the dataset loader: path, field delimiter and
character encoding (lines 31-33 pass a fixed path, `sep=";"` and
`encoding="latin1"`). -/
structure LoaderArgs where
  path : String
  delimiter : String
  encoding : String
deriving DecidableEq

/-- Modelled from the spec: the source wraps `cargar_datos` in
`@st.cache_data`, whose memoization and the `pd.read_csv` file read are
library and I/O behaviour outside the script itself.  `storage` abstracts
the file contents reachable from a given argument triple, the cache maps
previously seen arguments to their computed record sequence, and the
returned number counts how many storage reads the call performed. -/
def cargar_datos (storage : LoaderArgs → List Record)
    (cache : List (LoaderArgs × List Record)) (args : LoaderArgs) :
    List Record × List (LoaderArgs × List Record) × ℕ :=
  match cache.lookup args with
  | some v => (v, cache, 0)
  | none => (storage args, (args, storage args) :: cache, 1)

/-- Claim C9: calling the loader twice with identical arguments yields
identical record sequences, and the second call performs no storage read —
it returns the value memoized under the call arguments. -/
theorem cargar_datos_memoized (storage : LoaderArgs → List Record)
    (cache : List (LoaderArgs × List Record)) (args : LoaderArgs) :
    (cargar_datos storage (cargar_datos storage cache args).2.1 args).1
        = (cargar_datos storage cache args).1 ∧
    (cargar_datos storage (cargar_datos storage cache args).2.1 args).2.2 = 0 := by
  cases h : cache.lookup args with
  | some v => constructor <;> simp [cargar_datos, h]
  | none => constructor <;> simp [cargar_datos, h, List.lookup_cons_self]

/-- `df_time["Valor"].idxmax()` followed by `df_time.loc[...]`: the first
row attaining the maximal `Valor`, provided the frame is non-empty. -/
def idxmaxRow (t : List (Int × ℚ)) : Option (Int × ℚ) :=
  match t with
  | [] => none
  | x :: xs => some (xs.foldl (fun acc p => if acc.2 < p.2 then p else acc) x)

/-- Lines 253-266: the historic-maximum annotation row, computed only
behind the guard `df_time.empty or df_time["Valor"].dropna().empty` (values
are exact rationals here, so `dropna` keeps every row). -/
def max_row (df : List Record) (sel : Selection) : Option (Int × ℚ) :=
  if (df_time df sel).isEmpty || ((df_time df sel).map Prod.snd).isEmpty then none
  else idxmaxRow (df_time df sel)

lemma foldl_max (xs : List (Int × ℚ)) (x : Int × ℚ) :
    (xs.foldl (fun acc p => if acc.2 < p.2 then p else acc) x) ∈ x :: xs ∧
    x.2 ≤ (xs.foldl (fun acc p => if acc.2 < p.2 then p else acc) x).2 ∧
    ∀ q ∈ xs, q.2 ≤ (xs.foldl (fun acc p => if acc.2 < p.2 then p else acc) x).2 := by
  induction xs generalizing x with
  | nil => exact ⟨List.mem_singleton.mpr rfl, le_refl _, by intro q hq; cases hq⟩
  | cons y ys ih =>
      simp only [List.foldl_cons]
      by_cases hxy : x.2 < y.2
      · rw [if_pos hxy]
        obtain ⟨m1, m2, m3⟩ := ih y
        refine ⟨List.mem_cons_of_mem x m1, le_trans (le_of_lt hxy) m2, ?_⟩
        intro p hp
        rcases List.mem_cons.mp hp with h | h
        · rw [h]; exact m2
        · exact m3 p h
      · rw [if_neg hxy]
        obtain ⟨m1, m2, m3⟩ := ih x
        refine ⟨?_, m2, ?_⟩
        · rcases List.mem_cons.mp m1 with h | h
          · rw [h]; exact List.mem_cons_self _ _
          · exact List.mem_cons_of_mem x (List.mem_cons_of_mem y h)
        · intro p hp
          rcases List.mem_cons.mp hp with h | h
          · rw [h]; exact le_trans (not_lt.mp hxy) m2
          · exact m3 p h

/-- Claim C10: the idxmax lookup runs only behind the emptiness guard, so
it never fails: on an empty time aggregation the annotation is skipped
(`none`), and otherwise the annotated row belongs to `df_time` and its
yearly total attains the maximum. -/
theorem max_row_safe (df : List Record) (sel : Selection) :
    (df_time df sel = [] → max_row df sel = none) ∧
    (df_time df sel ≠ [] →
      ∃ p, max_row df sel = some p ∧ p ∈ df_time df sel ∧
        ∀ q ∈ df_time df sel, q.2 ≤ p.2) := by
  constructor
  · intro h
    unfold max_row
    rw [h]
    rfl
  · intro h
    obtain ⟨x, xs, hx⟩ := List.exists_cons_of_ne_nil h
    unfold max_row
    rw [hx]
    obtain ⟨m1, m2, m3⟩ := foldl_max xs x
    refine ⟨xs.foldl (fun acc p => if acc.2 < p.2 then p else acc) x, ?_, m1, ?_⟩
    · rfl
    intro p hp
    rcases List.mem_cons.mp hp with hp | hp
    · rw [hp]; exact m2
    · exact m3 p hp

/-- Concrete instance of claim C10 at a non-empty time aggregation. -/
theorem max_row_safe_witness :
    ∃ p, max_row [(⟨2020, "Hurto", "SUBA", 10⟩ : Record)] ⟨some 2021, ["Hurto"], []⟩ = some p ∧
      p ∈ df_time [(⟨2020, "Hurto", "SUBA", 10⟩ : Record)] ⟨some 2021, ["Hurto"], []⟩ ∧
      ∀ q ∈ df_time [(⟨2020, "Hurto", "SUBA", 10⟩ : Record)] ⟨some 2021, ["Hurto"], []⟩,
        q.2 ≤ p.2 := by
  apply (max_row_safe [⟨2020, "Hurto", "SUBA", 10⟩] ⟨some 2021, ["Hurto"], []⟩).2
  simp [df_time, groupBySum, List.insertionSort, List.orderedInsert]
